import Mathlib

/-!
Verification of the kreuzberg extraction pipeline specification.

The repository ships only the integration tests
(`crates/kreuzberg/tests/email_integration.rs`) and the HTTP error module
(`crates/kreuzberg/src/api/error.rs`) of the core under scrutiny; the CFB
container reader, the email extractors, the dispatcher and the cache are
described by the specification and exercised by those tests.  The
definitions below therefore fall in two groups: the API error conversion is
embedded directly from `api/error.rs`, while the CFB reader, extractors,
dispatcher and cache are modelled from the specification (each such
definition says so in its doc comment).
-/

set_option maxRecDepth 100000

/-- End-of-chain marker in a FAT (value `0xFFFFFFFE`). -/
def ENDOFCHAIN : Nat := 4294967294

/-- Free-sector marker in a FAT or DIFAT (value `0xFFFFFFFF`). -/
def FREESECT : Nat := 4294967295

/-- Modelled from the spec: the CFB parse modes `Strict` and `Lenient`
(§4.2 of the specification); the reader itself is not under `src/`. -/
inductive CfbMode where
  | Strict
  | Lenient
deriving DecidableEq

/-- Modelled from the spec: the CFB error taxonomy listed in §4.2
(`InvalidSignature`, `CorruptChain`, `TruncatedData`,
`UnsupportedSectorSize`). -/
inductive CfbError where
  | InvalidSignature
  | CorruptChain
  | TruncatedData
  | UnsupportedSectorSize
deriving DecidableEq

/-- Little-endian 32-bit words of a byte list; an incomplete trailing group
of fewer than four bytes yields no word. -/
def u32sOf : List Nat → List Nat
  | a :: b :: c :: d :: rest => (a + 256 * b + 65536 * c + 16777216 * d) :: u32sOf rest
  | _ => []

/-- Little-endian 16-bit words of a byte list. -/
def u16sOf : List Nat → List Nat
  | a :: b :: rest => (a + 256 * b) :: u16sOf rest
  | _ => []

/-- Bounds-defaulting little-endian 16-bit read at a byte offset. -/
def readU16 (b : List Nat) (off : Nat) : Nat :=
  b.getD off 0 + 256 * b.getD (off + 1) 0

/-- Bounds-defaulting little-endian 32-bit read at a byte offset. -/
def readU32 (b : List Nat) (off : Nat) : Nat :=
  b.getD off 0 + 256 * b.getD (off + 1) 0 + 65536 * b.getD (off + 2) 0
    + 16777216 * b.getD (off + 3) 0

/-- The `ssz` bytes of sector `loc`; sector `n` starts at byte
`(n + 1) * ssz` (the header occupies the space before sector 0). -/
def sectorBytes (b : List Nat) (ssz loc : Nat) : List Nat :=
  (b.drop ((loc + 1) * ssz)).take ssz

/-- Modelled from the spec: walking a FAT chain from a start sector with a
cycle guard.  A chain index outside `[0, n)` fails with `CorruptChain`, and
the walk is budgeted by an explicit fuel (`n + 1` at every call site), so a
chain that does not reach `ENDOFCHAIN` within `n + 1` steps also fails with
`CorruptChain` (§4.2: cycle guard). -/
def walkChain (fat : List Nat) (n : Nat) : Nat → Nat → Except CfbError (List Nat)
  | _, 0 => .error .CorruptChain
  | cur, fuel + 1 =>
    if cur = ENDOFCHAIN then .ok []
    else if n ≤ cur then .error .CorruptChain
    else
      match walkChain fat n (fat.getD cur 0) fuel with
      | .ok rest => .ok (cur :: rest)
      | .error e => .error e

/-- Modelled from the spec: reading one full data sector; a sector that
extends past the end of the buffer is `TruncatedData` (§4.2: declared size
exceeds recoverable bytes even in Lenient mode). -/
def readSector (b : List Nat) (ssz loc : Nat) : Except CfbError (List Nat) :=
  if (loc + 2) * ssz ≤ b.length then .ok (sectorBytes b ssz loc)
  else .error .TruncatedData

/-- Concatenation of the data sectors of a chain. -/
def readSectors (b : List Nat) (ssz : Nat) : List Nat → Except CfbError (List Nat)
  | [] => .ok []
  | loc :: rest =>
    match readSector b ssz loc with
    | .error e => .error e
    | .ok s =>
      match readSectors b ssz rest with
      | .error e => .error e
      | .ok r => .ok (s ++ r)

/-- Modelled from the spec: stream materialization over the FAT (§4.2).
The chain is walked with the cycle guard, full sectors are concatenated and
the result is truncated to the declared size; a declared size larger than
the recovered bytes is `TruncatedData`.  The parse mode plays no role here:
materialization behaves identically after Strict and after Lenient FAT
construction. -/
def materializeStream (b : List Nat) (ssz : Nat) (fat : List Nat) (start size : Nat) :
    Except CfbError (List Nat) :=
  match walkChain fat fat.length start (fat.length + 1) with
  | .error e => .error e
  | .ok chain =>
    match readSectors b ssz chain with
    | .error e => .error e
    | .ok bytes => if size ≤ bytes.length then .ok (bytes.take size) else .error .TruncatedData

/-- One step along the FAT: the successor of sector `c`. -/
def chainStep (fat : List Nat) (c : Nat) : Nat := fat.getD c 0

/-- The fixed 16-byte CFB signature (§3: signature is 16 fixed bytes that
must match the magic constant or parsing fails). -/
def cfbSignature : List Nat :=
  [208, 207, 17, 224, 161, 177, 26, 225, 0, 0, 0, 0, 0, 0, 0, 0]

/-- Modelled from the spec: the CFB header fields read by the reader (§3
data model: sector shift, mini shift, FAT sector count, first directory
sector, mini-stream cutoff, first DIFAT sector and DIFAT sector count). -/
structure CfbHeader where
  sectorShift : Nat
  miniShift : Nat
  numFatSectors : Nat
  firstDirSector : Nat
  miniCutoff : Nat
  firstDifat : Nat
  numDifat : Nat
deriving DecidableEq

/-- Modelled from the spec: header parsing.  The 16-byte signature is
validated first (a mismatch is fatal in both modes); a buffer too short to
hold the 512-byte header is `TruncatedData`; a sector-size shift outside a
sane bound is `UnsupportedSectorSize` (§4.2). -/
def parseCfbHeader (b : List Nat) : Except CfbError CfbHeader :=
  if b.take 16 ≠ cfbSignature then .error .InvalidSignature
  else if b.length < 512 then .error .TruncatedData
  else
    let shift := readU16 b 30
    if shift < 7 ∨ 15 < shift then .error .UnsupportedSectorSize
    else
      .ok { sectorShift := shift, miniShift := readU16 b 32,
            numFatSectors := readU32 b 44, firstDirSector := readU32 b 48,
            miniCutoff := readU32 b 56, firstDifat := readU32 b 68,
            numDifat := readU32 b 72 }

/-- The up-to-109 FAT sector locations listed directly in the header DIFAT
array (bytes 76..511), up to the first free-sector marker. -/
def headerDifatLocs (b : List Nat) : List Nat :=
  (u32sOf ((b.drop 76).take 436)).takeWhile (fun x => x != FREESECT)

/-- Modelled from the spec: walking the chain of DIFAT sectors for files
whose FAT does not fit in the header list (§4.2: the reader must support
both the header list and DIFAT sectors).  Each DIFAT sector contributes its
entries except the last, which names the next DIFAT sector; the walk is
fuel-bounded against cycles. -/
def difatWalk (b : List Nat) (ssz : Nat) : Nat → Nat → Except CfbError (List Nat)
  | _, 0 => .error .CorruptChain
  | loc, fuel + 1 =>
    if loc = ENDOFCHAIN ∨ loc = FREESECT then .ok []
    else if (loc + 2) * ssz ≤ b.length then
      let ws := u32sOf (sectorBytes b ssz loc)
      match difatWalk b ssz (ws.getLastD FREESECT) fuel with
      | .ok rest => .ok ((ws.dropLast.takeWhile (fun x => x != FREESECT)) ++ rest)
      | .error e => .error e
    else .error .TruncatedData

/-- Modelled from the spec: the full list of FAT sector locations — the
header list followed by the DIFAT-sector entries, capped at the declared
FAT sector count. -/
def fatSectorLocs (b : List Nat) (ssz : Nat) (hdr : CfbHeader) :
    Except CfbError (List Nat) :=
  match difatWalk b ssz hdr.firstDifat (hdr.numDifat + 1) with
  | .error e => .error e
  | .ok ds => .ok ((headerDifatLocs b ++ ds).take hdr.numFatSectors)

/-- Modelled from the spec: reading one FAT sector (§4.2).  In Strict mode
a FAT sector that would read past the end of the buffer is a structural
error; in Lenient mode the available entries are kept and the missing
trailing entries are padded with the end-of-chain marker. -/
def readFatSector (b : List Nat) (ssz loc : Nat) : CfbMode → Except CfbError (List Nat)
  | .Strict =>
    if (loc + 2) * ssz ≤ b.length then .ok (u32sOf (sectorBytes b ssz loc))
    else .error .TruncatedData
  | .Lenient =>
    let es := u32sOf (sectorBytes b ssz loc)
    .ok (es ++ List.replicate (ssz / 4 - es.length) ENDOFCHAIN)

/-- Modelled from the spec: concatenating the entries of all FAT sectors
into the FAT. -/
def buildFat (b : List Nat) (ssz : Nat) (mode : CfbMode) :
    List Nat → Except CfbError (List Nat)
  | [] => .ok []
  | loc :: rest =>
    match readFatSector b ssz loc mode with
    | .error e => .error e
    | .ok s =>
      match buildFat b ssz mode rest with
      | .error e => .error e
      | .ok r => .ok (s ++ r)

/-- The FAT a Lenient reader recovers: every listed FAT sector contributes
its available entries padded to a full sector with the end-of-chain
marker. -/
def lenientFat (b : List Nat) (ssz : Nat) (locs : List Nat) : List Nat :=
  (locs.map (fun loc =>
    let es := u32sOf (sectorBytes b ssz loc)
    es ++ List.replicate (ssz / 4 - es.length) ENDOFCHAIN)).flatten

/-- Modelled from the spec: one 128-byte directory entry (§3 data model).
The name is stored as UTF-16 code units in the first 64 bytes with the
byte length (terminator included) at offset 64; the object type is at
offset 66, the start sector at 116 and the stream size at 120. -/
structure DirEntry where
  name : List Nat
  objType : Nat
  startSector : Nat
  size : Nat
deriving DecidableEq

/-- Parse one 128-byte directory entry record. -/
def parseDirEntry (e : List Nat) : DirEntry :=
  let nameLen := readU16 e 64
  { name := (u16sOf (e.take 64)).take (nameLen / 2 - 1),
    objType := e.getD 66 0, startSector := readU32 e 116, size := readU32 e 120 }

/-- All 128-byte directory entry records of a directory-chain byte
sequence. -/
def dirEntriesOfBytes (s : List Nat) : List DirEntry :=
  (List.range (s.length / 128)).map (fun i => parseDirEntry ((s.drop (128 * i)).take 128))

/-- Modelled from the spec: walking the directory sector chain and
materializing the live (allocated) directory entries in on-disk traversal
order. -/
def buildDirectory (b : List Nat) (ssz : Nat) (fat : List Nat) (firstDir : Nat) :
    Except CfbError (List DirEntry) :=
  match walkChain fat fat.length firstDir (fat.length + 1) with
  | .error e => .error e
  | .ok chain =>
    match readSectors b ssz chain with
    | .error e => .error e
    | .ok bytes => .ok ((dirEntriesOfBytes bytes).filter (fun d => d.objType != 0))

/-- Modelled from the spec: the parsed container — the live directory
entries plus the data needed to materialize streams. -/
structure CfbContainer where
  entries : List DirEntry
  fat : List Nat
  sectorSize : Nat
  miniCutoff : Nat
deriving DecidableEq

/-- Modelled from the spec: `parse(bytes, mode)` (§4.2) — validate the
header, collect the FAT sector locations, build the FAT in the requested
mode and materialize the directory. -/
def cfbParse (b : List Nat) (mode : CfbMode) : Except CfbError CfbContainer :=
  match parseCfbHeader b with
  | .error e => .error e
  | .ok hdr =>
    let ssz := 2 ^ hdr.sectorShift
    match fatSectorLocs b ssz hdr with
    | .error e => .error e
    | .ok locs =>
      match buildFat b ssz mode locs with
      | .error e => .error e
      | .ok fat =>
        match buildDirectory b ssz fat hdr.firstDirSector with
        | .error e => .error e
        | .ok entries =>
          .ok { entries := entries, fat := fat, sectorSize := ssz,
                miniCutoff := hdr.miniCutoff }

/-- Little-endian 16-bit encoding of a value. -/
def u16le (n : Nat) : List Nat := [n % 256, n / 256 % 256]

/-- Little-endian 32-bit encoding of a value. -/
def u32le (n : Nat) : List Nat :=
  [n % 256, n / 256 % 256, n / 65536 % 256, n / 16777216 % 256]

/-- FAT-sector marker in a FAT (value `0xFFFFFFFD`). -/
def FATSECT : Nat := 4294967292 + 1

/-- A 512-byte CFB header with 512-byte sectors, the given FAT sector
count, first directory sector, and header DIFAT list (no DIFAT sectors). -/
def mkCfbHeaderBytes (numFat firstDir : Nat) (difat : List Nat) : List Nat :=
  cfbSignature ++ List.replicate 14 0 ++ u16le 9 ++ u16le 6 ++
    List.replicate 10 0 ++ u32le numFat ++ u32le firstDir ++
    List.replicate 4 0 ++ u32le 4096 ++ List.replicate 8 0 ++
    u32le ENDOFCHAIN ++ u32le 0 ++ (difat.map u32le).flatten ++
    List.replicate ((109 - difat.length) * 4) 255

/-- A FAT sector marking sector 0 as a FAT sector, sector 1 as a one-sector
directory chain and sector 2 as a FAT sector, the rest free. -/
def truncFatSectorBytes : List Nat :=
  ([FATSECT, ENDOFCHAIN, FATSECT].map u32le).flatten ++ List.replicate (125 * 4) 255

/-- A CFB buffer whose final FAT sector (sector 2) is truncated after 64 of
its 512 bytes: header (FAT sectors 0 and 2, directory at sector 1), a full
first FAT sector, an all-zero directory sector, then only 64 bytes of the
second FAT sector. -/
def truncBuf : List Nat :=
  mkCfbHeaderBytes 2 1 [0, 2] ++ truncFatSectorBytes ++ List.replicate 512 0 ++
    List.replicate 64 0

/-- Whether the second list is a prefix of the first. -/
def startsWithL {α : Type} [BEq α] : List α → List α → Bool
  | _, [] => true
  | [], _ :: _ => false
  | h :: t, n :: m => h == n && startsWithL t m

/-- Whether the second list occurs as a contiguous segment of the first. -/
def containsL {α : Type} [BEq α] : List α → List α → Bool
  | [], needle => needle.isEmpty
  | h :: t, needle => startsWithL (h :: t) needle || containsL t needle

/-- Whether the second string occurs as a substring of the first. -/
def containsS (hay sub : String) : Bool := containsL hay.data sub.data

/-- Truth of an `Except` being a success. -/
def exceptOk {ε α : Type} : Except ε α → Bool
  | .ok _ => true
  | .error _ => false

/-- The error taxonomy of the library as declared by the variants matched
in `ApiError::new` (`crates/kreuzberg/src/api/error.rs`); every payload is
collapsed to its message string. -/
inductive KreuzbergError where
  | Validation (msg : String)
  | Parsing (msg : String)
  | Ocr (msg : String)
  | Io (msg : String)
  | Cache (msg : String)
  | ImageProcessing (msg : String)
  | Serialization (msg : String)
  | MissingDependency (msg : String)
  | Plugin (msg : String)
  | LockPoisoned (msg : String)
  | UnsupportedFormat (msg : String)
  | Other (msg : String)
deriving DecidableEq

/-- Modelled from the spec: per-attachment record (§3 `AttachmentInfo`). -/
structure AttachmentInfo where
  filename : String
  mime_type : String
  size_bytes : Nat
deriving DecidableEq

/-- Modelled from the spec: the email-specific metadata variant (§3). -/
structure EmailMetadata where
  from_email : Option String
  to_emails : List String
  cc_emails : List String
  bcc_emails : List String
  message_id : Option String
  attachments : List AttachmentInfo
deriving DecidableEq

/-- Modelled from the spec: the format-specific metadata variant (§3); only
the email variant is detailed by the specification. -/
inductive FormatMetadata where
  | Email (m : EmailMetadata)
deriving DecidableEq

/-- Modelled from the spec: common result metadata (§3
`ExtractionResult`). -/
structure DocMetadata where
  subject : Option String
  created_at : Option String
  language : Option String
  format : Option FormatMetadata
deriving DecidableEq

/-- Modelled from the spec: the uniform extraction result (§3). -/
structure ExtractionResult where
  content : String
  mime_type : String
  metadata : DocMetadata
deriving DecidableEq

/-- Modelled from the spec: the extraction configuration (§6 input
contract). -/
structure ExtractionConfig where
  ocr_enabled : Bool
  ocr_language_hints : List String
  max_content_length : Option Nat
  cfb_mode : CfbMode
  html_sanitize : Bool
deriving DecidableEq

/-- Modelled from the spec: the default configuration; `cfb_mode` defaults
to `Strict` (§9: Lenient padding is preserved as opt-in at the parse
level). -/
def defaultConfig : ExtractionConfig :=
  { ocr_enabled := false, ocr_language_hints := [], max_content_length := none,
    cfb_mode := .Strict, html_sanitize := true }

/-- UTF-16 code units (here ASCII codes) of a string. -/
def strCodes (s : String) : List Nat := s.data.map Char.toNat

/-- The fixed part of the numbered attachment-storage name pattern. -/
def attachPre : List Nat := strCodes "__attach_version1.0_#"

/-- Hexadecimal-digit test on a UTF-16 code unit. -/
def isHexCode (n : Nat) : Bool :=
  (decide (48 ≤ n) && decide (n ≤ 57)) || (decide (65 ≤ n) && decide (n ≤ 70))
    || (decide (97 ≤ n) && decide (n ≤ 102))

/-- Value of a hexadecimal digit code unit. -/
def hexVal (n : Nat) : Nat :=
  if n ≤ 57 then n - 48 else if n ≤ 70 then n - 55 else n - 87

/-- Modelled from the spec: recognize `__attach.._#nnnnnnnn` attachment
storage names (§4.3): the fixed pattern followed by exactly eight
hexadecimal digits. -/
def isAttachName (nm : List Nat) : Bool :=
  startsWithL nm attachPre && decide ((nm.drop attachPre.length).length = 8)
    && (nm.drop attachPre.length).all isHexCode

/-- The number encoded in an attachment-storage name. -/
def attachNum (nm : List Nat) : Nat :=
  (nm.drop attachPre.length).foldl (fun a d => 16 * a + hexVal d) 0

/-- Modelled from the spec: the numbered attachment storages of a parsed
container (§4.3 enumerates them by name pattern). -/
def attachStorageEntries (c : CfbContainer) : List DirEntry :=
  c.entries.filter (fun d => d.objType == 1 && isAttachName d.name)

/-- Insertion into a list sorted by attachment number. -/
def insertByNum (x : DirEntry) : List DirEntry → List DirEntry
  | [] => [x]
  | y :: t =>
    if attachNum x.name ≤ attachNum y.name then x :: y :: t else y :: insertByNum x t

/-- Insertion sort by attachment number (§4.3: attachment records are
produced in ascending numeric order). -/
def sortByNum : List DirEntry → List DirEntry
  | [] => []
  | x :: t => insertByNum x (sortByNum t)

/-- Decode stored UTF-16 code units to a string (best effort). -/
def decodeUnits (units : List Nat) : String :=
  String.mk (units.map (fun u => Char.ofNat u))

/-- One attachment record per attachment storage. -/
def attachInfoOf (d : DirEntry) : AttachmentInfo :=
  { filename := decodeUnits d.name, mime_type := "application/octet-stream",
    size_bytes := d.size }

/-- The literal marker introducing the attachment list in rendered
content. -/
def attachMarker : String := "Attachments:"

/-- The attachment block of rendered MSG content: the marker followed by
the attachment names. -/
def msgAttachBlock (atts : List DirEntry) : List Char :=
  attachMarker.data ++
    ('\n' :: (atts.map (fun d => (decodeUnits d.name).data ++ ['\n'])).flatten)

/-- Rendered MSG content: a base line and — when attachments exist — the
`Attachments:` marker with the attachment names. -/
def msgContentChars (atts : List DirEntry) : List Char :=
  if atts.isEmpty then ("Outlook message").data
  else ("Outlook message\n\n").data ++ msgAttachBlock atts

/-- Modelled from the spec: the MSG extraction result for a parsed
container.  MAPI property decoding (subject, sender, recipients) is not
modelled: the corresponding fields are absent, which §7 explicitly allows
(partial success is success with absent fields); attachment storages are
enumerated in ascending numeric order (§4.3). -/
def msgResult (c : CfbContainer) : ExtractionResult :=
  let atts := sortByNum (attachStorageEntries c)
  ⟨String.mk (msgContentChars atts), "application/vnd.ms-outlook",
    ⟨none, none, none,
      some (.Email ⟨none, [], [], [], none, atts.map attachInfoOf⟩)⟩⟩

/-- CFB errors rendered as human-readable parsing-error messages. -/
def cfbErrMsg : CfbError → String
  | .InvalidSignature => "invalid CFB signature"
  | .CorruptChain => "corrupt FAT chain"
  | .TruncatedData => "truncated CFB data"
  | .UnsupportedSectorSize => "unsupported CFB sector size"

/-- Modelled from the spec and the integration tests: the MSG extraction
path.  The container is parsed in the configured mode; when the configured
mode is `Strict` and parsing fails, the extractor retries in `Lenient` mode
(`test_msg_truncated_fat` recovers a truncated-FAT file under the default,
Strict, configuration).  A CFB error is surfaced as `Parsing` (§7: all CFB
errors belong to `ParsingError`). -/
def msgExtract (b : List Nat) (cfg : ExtractionConfig) :
    Except KreuzbergError ExtractionResult :=
  match cfbParse b cfg.cfb_mode with
  | .ok c => .ok (msgResult c)
  | .error e =>
    match cfg.cfb_mode with
    | .Strict =>
      match cfbParse b .Lenient with
      | .ok c => .ok (msgResult c)
      | .error e2 => .error (.Parsing (cfbErrMsg e2))
    | .Lenient => .error (.Parsing (cfbErrMsg e))

/-- Latin-1 decoding of raw bytes to characters; charset normalization is
simplified to byte-wise decoding (the exercised inputs are ASCII). -/
def decodeBytes (b : List Nat) : List Char := b.map (fun n => Char.ofNat n)

/-- Encoding of characters back to bytes. -/
def encodeChars (l : List Char) : List Nat := l.map Char.toNat

/-- Split a message at the first blank line (CRLF CRLF) into header part
and body. -/
def splitMessage : List Char → List Char × List Char
  | [] => ([], [])
  | c :: t =>
    if startsWithL (c :: t) ('\r' :: '\n' :: '\r' :: '\n' :: []) then
      ([], t.drop 3)
    else
      let p := splitMessage t
      (c :: p.1, p.2)

/-- Split the header part into lines at CRLF. -/
def splitLines : List Char → List (List Char)
  | [] => [[]]
  | [c] => [[c]]
  | c :: d :: r =>
    if c = '\r' ∧ d = '\n' then [] :: splitLines r
    else
      match splitLines (d :: r) with
      | h :: tl => (c :: h) :: tl
      | [] => [[c]]

/-- Split a header line at the first colon; the value drops leading
spaces. -/
def splitHeaderLine : List Char → List Char × List Char
  | [] => ([], [])
  | c :: t =>
    if c = ':' then ([], t.dropWhile (fun x => x == ' '))
    else
      let p := splitHeaderLine t
      (c :: p.1, p.2)

/-- Header fields of the header part, in header order. -/
def headerFields (hp : List Char) : List (List Char × List Char) :=
  (splitLines hp).map splitHeaderLine

/-- First header with the given name. -/
def findHeader (nm : List Char) : List (List Char × List Char) → Option (List Char)
  | [] => none
  | (n, v) :: t => if n = nm then some v else findHeader nm t

/-- Split a recipient header value at commas. -/
def splitCommas : List Char → List (List Char)
  | [] => [[]]
  | c :: t =>
    if c = ',' then [] :: splitCommas t
    else
      match splitCommas t with
      | h :: tl => (c :: h) :: tl
      | [] => [[c]]

/-- Address list of an optional recipient header value. -/
def addrList : Option (List Char) → List String
  | none => []
  | some v => (splitCommas v).map (fun a => String.mk (a.dropWhile (fun x => x == ' ')))

/-- Drop everything up to and including the first occurrence of `needle`;
if it does not occur, drop everything. -/
def skipPast (needle : List Char) : List Char → List Char
  | [] => []
  | c :: t =>
    if startsWithL (c :: t) needle then (c :: t).drop needle.length
    else skipPast needle t

/-- Drop a simple tag: everything through the next closing angle
bracket. -/
def skipTag : List Char → List Char
  | [] => []
  | c :: t => if c = '>' then t else skipTag t

/-- Fuel-bounded sanitization step: script and style elements are removed
together with their entire content; any other tag is removed while the
text around it is kept.  The fuel only serves structural recursion; at
fuel at least the input length the result is fuel-independent. -/
def sanitizeAux : Nat → List Char → List Char
  | 0, _ => []
  | _ + 1, [] => []
  | fuel + 1, c :: t =>
    if c = '<' then
      if startsWithL t ("script".data) then
        sanitizeAux fuel (skipPast ("</script>".data) t)
      else if startsWithL t ("style".data) then
        sanitizeAux fuel (skipPast ("</style>".data) t)
      else sanitizeAux fuel (skipTag t)
    else c :: sanitizeAux fuel t

/-- Modelled from the spec: HTML sanitization (§4.1).  Script and style
content is stripped entirely; other tags are dropped while the surrounding
text is retained. -/
def sanitizeHtml (l : List Char) : List Char := sanitizeAux l.length l

/-- One rendered header line, when the header is present. -/
def optLine (label : List Char) : Option (List Char) → List Char
  | some v => label ++ v ++ ['\n']
  | none => []

/-- The rendered header block of .eml content: subject, sender and
recipient lines for the headers that are present. -/
def renderHdrBlock (subj fromv tov : Option (List Char)) : List Char :=
  optLine ("Subject: ".data) subj ++ optLine ("From: ".data) fromv ++
    optLine ("To: ".data) tov

/-- Modelled from the spec: the RFC822 (.eml) extraction path (§4.1).
Headers are parsed from the part before the first blank line; a
`text/html` body (per the `Content-Type` header) is sanitized — script and
style content is stripped unconditionally for HTML bodies — and the
rendered content is the recognized header lines followed by the body.
Extraction of an .eml input is best-effort and never fails
structurally. -/
def emlExtract (b : List Nat) (cfg : ExtractionConfig) :
    Except KreuzbergError ExtractionResult :=
  let chars := decodeBytes b
  let hb := splitMessage chars
  let hs := headerFields hb.1
  let subject := findHeader ("Subject".data) hs
  let fromH := findHeader ("From".data) hs
  let toH := findHeader ("To".data) hs
  let msgid := findHeader ("Message-ID".data) hs
  let date := findHeader ("Date".data) hs
  let ctype := findHeader ("Content-Type".data) hs
  let isHtml := match ctype with
    | some v => startsWithL v ("text/html".data)
    | none => false
  let bodyOut := if isHtml then sanitizeHtml hb.2 else hb.2
  let content := renderHdrBlock subject fromH toH ++ ('\n' :: bodyOut)
  .ok ⟨String.mk content, "message/rfc822",
    ⟨subject.map String.mk, date.map String.mk, none,
      some (.Email ⟨fromH.map String.mk, addrList toH,
        addrList (findHeader ("Cc".data) hs), addrList (findHeader ("Bcc".data) hs),
        msgid.map String.mk, []⟩)⟩⟩

/-- Modelled from the spec: the dispatcher contract (§4.1) restricted to
the two email formats the claims exercise; any other declared type has no
registered extractor and fails with `UnsupportedFormat`. -/
def extract_bytes (b : List Nat) (declared : String) (cfg : ExtractionConfig) :
    Except KreuzbergError ExtractionResult :=
  if declared = "application/vnd.ms-outlook" then msgExtract b cfg
  else if declared = "message/rfc822" then emlExtract b cfg
  else .error (.UnsupportedFormat declared)

/-- Modelled from the spec: the cache key (§3) — the cryptographic
fingerprint over the request bytes, the effective format and the
configuration subset affecting output is modelled as the injective tuple
itself. -/
structure Fingerprint where
  bytes : List Nat
  fmt : String
  cfg : ExtractionConfig
deriving DecidableEq

/-- Fingerprint of a request. -/
def fingerprintOf (b : List Nat) (t : String) (cfg : ExtractionConfig) : Fingerprint :=
  ⟨b, t, cfg⟩

/-- Lookup in the fingerprint-keyed cache. -/
def cacheGet : List (Fingerprint × ExtractionResult) → Fingerprint → Option ExtractionResult
  | [], _ => none
  | (k, v) :: t, fp => if k = fp then some v else cacheGet t fp

/-- Modelled from the spec: the dispatcher entry point including the cache
(§4.1): look up by fingerprint; on a hit return the cached result
unchanged; on a miss run the extraction, memoizing successes only (failed
extractions are not memoized, so an identical request retries). -/
def extractCached (cache : List (Fingerprint × ExtractionResult)) (b : List Nat)
    (t : String) (cfg : ExtractionConfig) :
    Except KreuzbergError ExtractionResult × List (Fingerprint × ExtractionResult) :=
  let fp := fingerprintOf b t cfg
  match cacheGet cache fp with
  | some r => (.ok r, cache)
  | none =>
    match extract_bytes b t cfg with
    | .ok r => (.ok r, (fp, r) :: cache)
    | .error e => (.error e, cache)

/-- The 64-byte UTF-16LE name field of a directory entry for an ASCII
name (terminator and padding included). -/
def utf16NameBytes (s : String) : List Nat :=
  let raw := (s.data.map (fun c => [c.toNat % 256, c.toNat / 256 % 256])).flatten
  raw ++ List.replicate (64 - raw.length) 0

/-- A 128-byte directory entry record with the given name, object type,
start sector and size. -/
def mkDirEntryBytes (nm : String) (typ start size : Nat) : List Nat :=
  utf16NameBytes nm ++ u16le (2 * (nm.length + 1)) ++ [typ, 1] ++
    u32le FREESECT ++ u32le FREESECT ++ u32le FREESECT ++ List.replicate 36 0 ++
    u32le start ++ u32le size ++ List.replicate 4 0

/-- A FAT sector marking sector 0 as the FAT sector and sector 1 as a
one-sector directory chain, the rest free. -/
def msgFatSectorBytes : List Nat :=
  ([FATSECT, ENDOFCHAIN].map u32le).flatten ++ List.replicate (126 * 4) 255

/-- A well-formed CFB buffer for an Outlook message holding a root storage
and exactly three numbered attachment storages. -/
def msgBuf3 : List Nat :=
  mkCfbHeaderBytes 1 1 [0] ++ msgFatSectorBytes ++
    mkDirEntryBytes "Root Entry" 5 ENDOFCHAIN 0 ++
    mkDirEntryBytes "__attach_version1.0_#00000000" 1 ENDOFCHAIN 7 ++
    mkDirEntryBytes "__attach_version1.0_#00000001" 1 ENDOFCHAIN 7 ++
    mkDirEntryBytes "__attach_version1.0_#00000002" 1 ENDOFCHAIN 7

/-- HTTP status codes used by the API error conversion, as their numeric
values (`StatusCode::as_u16`). -/
def BAD_REQUEST : Nat := 400

/-- HTTP 422, `StatusCode::UNPROCESSABLE_ENTITY`. -/
def UNPROCESSABLE_ENTITY : Nat := 422

/-- HTTP 500, `StatusCode::INTERNAL_SERVER_ERROR`. -/
def INTERNAL_SERVER_ERROR : Nat := 500

/-- The error response body (`ErrorResponse` of `api/types.rs` as used by
`api/error.rs`). -/
structure ErrorResponse where
  error_type : String
  message : String
  traceback : Option String
  status_code : Nat
deriving DecidableEq

/-- The API error wrapper (`ApiError` of `api/error.rs`). -/
structure ApiError where
  status : Nat
  body : ErrorResponse
deriving DecidableEq

/-- The `error_type` string chosen by the match in `ApiError::new`
(`api/error.rs`, lines 48-63), verbatim from the source. -/
def errorTypeName : KreuzbergError → String
  | .Validation _ => "ValidationError"
  | .Parsing _ => "ParsingError"
  | .Ocr _ => "OCRError"
  | .Io _ => "IOError"
  | .Cache _ => "CacheError"
  | .ImageProcessing _ => "ImageProcessingError"
  | .Serialization _ => "SerializationError"
  | .MissingDependency _ => "MissingDependencyError"
  | .Plugin _ => "PluginError"
  | .LockPoisoned _ => "LockPoisonedError"
  | .UnsupportedFormat _ => "UnsupportedFormatError"
  | .Other _ => "Error"

/-- The human-readable message of an error (`error.to_string()`); the
`Display` implementation is outside `src/`, so the message is modelled as
the carried message string. -/
def errorMessage : KreuzbergError → String
  | .Validation m => m
  | .Parsing m => m
  | .Ocr m => m
  | .Io m => m
  | .Cache m => m
  | .ImageProcessing m => m
  | .Serialization m => m
  | .MissingDependency m => m
  | .Plugin m => m
  | .LockPoisoned m => m
  | .UnsupportedFormat m => m
  | .Other m => m

/-- `ApiError::new` (`api/error.rs`): pairs the status with a body carrying
the taxonomy-derived `error_type`, the rendered message and the numeric
status code. -/
def ApiError.new (status : Nat) (e : KreuzbergError) : ApiError :=
  ⟨status, ⟨errorTypeName e, errorMessage e, none, status⟩⟩

/-- `ApiError::validation` (400). -/
def ApiError.validation (e : KreuzbergError) : ApiError := ApiError.new BAD_REQUEST e

/-- `ApiError::unprocessable` (422). -/
def ApiError.unprocessable (e : KreuzbergError) : ApiError :=
  ApiError.new UNPROCESSABLE_ENTITY e

/-- `ApiError::internal` (500). -/
def ApiError.internal (e : KreuzbergError) : ApiError :=
  ApiError.new INTERNAL_SERVER_ERROR e

/-- `From<KreuzbergError> for ApiError` (`api/error.rs`, lines 97-105):
`Validation` becomes 400, `Parsing` and `Ocr` become 422, everything else
500. -/
def apiErrorFrom (e : KreuzbergError) : ApiError :=
  match e with
  | .Validation _ => ApiError.validation e
  | .Parsing _ => ApiError.unprocessable e
  | .Ocr _ => ApiError.unprocessable e
  | _ => ApiError.internal e

/-- The attachment records of a result's email metadata. -/
def emailAttachments (r : ExtractionResult) : List AttachmentInfo :=
  match r.metadata.format with
  | some (.Email m) => m.attachments
  | _ => []

/-- Value of a successful `Except`, with a default. -/
def exceptGet {ε α : Type} (d : α) : Except ε α → α
  | .ok a => a
  | .error _ => d

/-- The container parsed from `msgBuf3` in Strict mode. -/
def msgBuf3Container : CfbContainer :=
  exceptGet ⟨[], [], 0, 0⟩ (cfbParse msgBuf3 .Strict)

/-- A raw RFC822 message with `From`, `To` and `Subject` headers and a
body, CRLF line endings and a blank separator line. -/
def mkEmlChars (fv tov sv body : List Char) : List Char :=
  (("From: ").data ++ fv) ++ ('\r' :: '\n' ::
    ((("To: ").data ++ tov) ++ ('\r' :: '\n' ::
      ((("Subject: ").data ++ sv) ++ ('\r' :: '\n' :: '\r' :: '\n' :: body)))))

/-- Byte form of `mkEmlChars`. -/
def mkEmlBytes (fv tov sv body : List Char) : List Nat :=
  encodeChars (mkEmlChars fv tov sv body)

/-- A raw RFC822 message with `From`, `To`, `Subject` and a
`Content-Type: text/html` header and an HTML body. -/
def mkHtmlEmlChars (fv tov sv body : List Char) : List Char :=
  (("From: ").data ++ fv) ++ ('\r' :: '\n' ::
    ((("To: ").data ++ tov) ++ ('\r' :: '\n' ::
      ((("Subject: ").data ++ sv) ++ ('\r' :: '\n' ::
        ((("Content-Type: ").data ++ ("text/html; charset=utf-8").data) ++
          ('\r' :: '\n' :: '\r' :: '\n' :: body)))))))

/-- Byte form of `mkHtmlEmlChars`. -/
def mkHtmlEmlBytes (fv tov sv body : List Char) : List Nat :=
  encodeChars (mkHtmlEmlChars fv tov sv body)

/-- An HTML body holding a style element, a script element and visible text
around them. -/
def htmlBodyChars (v1 sty v2 scr v3 : List Char) : List Char :=
  v1 ++ (("<style>").data ++ (sty ++ (("</style>").data ++
    (v2 ++ (("<script>").data ++ (scr ++ (("</script>").data ++ v3)))))))

/-- The subject of an extraction outcome. -/
def resultSubject : Except KreuzbergError ExtractionResult → Option String
  | .ok r => r.metadata.subject
  | .error _ => none

/-- The sender address recorded in the email metadata of an extraction
outcome. -/
def resultFromEmail : Except KreuzbergError ExtractionResult → Option String
  | .ok r =>
    match r.metadata.format with
    | some (.Email m) => m.from_email
    | _ => none
  | .error _ => none

/-- The content of an extraction outcome. -/
def resultContent : Except KreuzbergError ExtractionResult → String
  | .ok r => r.content
  | .error _ => ""

theorem walkChain_no_eoc (fat : List Nat) (n : Nat) :
    ∀ (fuel s : Nat), (∀ i, i < fuel → (chainStep fat)^[i] s ≠ ENDOFCHAIN) →
      walkChain fat n s fuel = .error .CorruptChain := by
  intro fuel
  induction fuel with
  | zero => intro s _; rfl
  | succ k ih =>
    intro s hs
    have h0 : s ≠ ENDOFCHAIN := by
      have := hs 0 (Nat.succ_pos k)
      simpa using this
    unfold walkChain
    simp only [h0, if_false]
    by_cases hrange : n ≤ s
    · simp [hrange]
    · have hnext : ∀ i, i < k → (chainStep fat)^[i] (chainStep fat s) ≠ ENDOFCHAIN := by
        intro i hi
        have := hs (i + 1) (Nat.succ_lt_succ hi)
        rwa [Function.iterate_succ_apply] at this
      have := ih (fat.getD s 0) hnext
      simp [hrange, chainStep] at this ⊢
      rw [this]

theorem walkChain_out_of_range (fat : List Nat) (n s fuel : Nat)
    (hne : s ≠ ENDOFCHAIN) (hout : n ≤ s) :
    walkChain fat n s (fuel + 1) = .error .CorruptChain := by
  unfold walkChain
  simp [hne, hout]

/-- C2.  Stream materialization over a FAT chain that contains a cycle (or
any chain that fails to reach the end-of-chain marker within
`sector_count + 1` steps) terminates — `materializeStream` is a total
function — and fails with `CfbError.CorruptChain`; likewise a start index
outside `[0, sector_count)` is rejected with `CorruptChain`.  The parse
mode is not a parameter of materialization, so this holds after both Strict
and Lenient FAT construction. -/
theorem materializeStream_cycle_guard (b : List Nat) (ssz : Nat) (fat : List Nat)
    (s size : Nat) (hne : s ≠ ENDOFCHAIN) :
    (fat.length ≤ s → materializeStream b ssz fat s size = .error .CorruptChain) ∧
    ((∀ i, i ≤ fat.length → (chainStep fat)^[i] s ≠ ENDOFCHAIN) →
      materializeStream b ssz fat s size = .error .CorruptChain) := by
  constructor
  · intro hout
    unfold materializeStream
    rw [walkChain_out_of_range fat fat.length s fat.length hne hout]
  · intro hcyc
    unfold materializeStream
    rw [walkChain_no_eoc fat fat.length (fat.length + 1) s
      (fun i hi => hcyc i (Nat.lt_succ_iff.mp hi))]

/-- Witness for C2: a one-sector FAT with a self-loop at sector 0 is
rejected with `CorruptChain`. -/
theorem materializeStream_cycle_guard_witness :
    materializeStream [] 512 [0] 0 64 = .error .CorruptChain := by
  refine (materializeStream_cycle_guard [] 512 [0] 0 64 (by decide)).2 ?_
  intro i _
  have hfix : ∀ j, (chainStep [0])^[j] 0 = 0 := by
    intro j
    induction j with
    | zero => rfl
    | succ k ih => rw [Function.iterate_succ_apply, show chainStep [0] 0 = 0 from rfl, ih]
  rw [hfix i]
  decide

theorem buildFat_lenient (b : List Nat) (ssz : Nat) :
    ∀ locs, buildFat b ssz .Lenient locs = .ok (lenientFat b ssz locs) := by
  intro locs
  induction locs with
  | nil => rfl
  | cons loc rest ih =>
    simp only [buildFat, readFatSector, ih, lenientFat, List.map_cons, List.flatten_cons]

theorem buildFat_strict_truncated (b : List Nat) (ssz last : Nat)
    (hlast : b.length < (last + 2) * ssz) :
    ∀ init, (∀ loc ∈ init, (loc + 2) * ssz ≤ b.length) →
      buildFat b ssz .Strict (init ++ [last]) = .error .TruncatedData := by
  intro init
  induction init with
  | nil =>
    intro _
    simp only [List.nil_append, buildFat, readFatSector]
    rw [if_neg (Nat.not_le.mpr hlast)]
  | cons loc rest ih =>
    intro hall
    have hloc : (loc + 2) * ssz ≤ b.length := hall loc (by simp)
    have hrest := ih (fun l hl => hall l (by simp [hl]))
    simp only [List.cons_append, buildFat, readFatSector, List.append_eq]
    rw [if_pos hloc, hrest]

/-- C1.  A CFB buffer whose final FAT sector is truncated (every earlier
FAT sector lies inside the buffer, the last one extends past its end) but
which is otherwise valid (header and FAT-sector locations parse, and the
directory stage succeeds over the Lenient-padded FAT) parses successfully
in `Lenient` mode — the reader pads the missing trailing FAT entries with
the end-of-chain marker and continues — while `Strict` mode fails with
`TruncatedData` (one of the two structural errors the claim allows). -/
theorem cfbParse_truncated_fat_modes (b : List Nat) (hdr : CfbHeader)
    (init : List Nat) (last : Nat) (entries : List DirEntry)
    (hhdr : parseCfbHeader b = .ok hdr)
    (hlocs : fatSectorLocs b (2 ^ hdr.sectorShift) hdr = .ok (init ++ [last]))
    (hinit : ∀ loc ∈ init, (loc + 2) * 2 ^ hdr.sectorShift ≤ b.length)
    (hlast : b.length < (last + 2) * 2 ^ hdr.sectorShift)
    (hdir : buildDirectory b (2 ^ hdr.sectorShift)
      (lenientFat b (2 ^ hdr.sectorShift) (init ++ [last])) hdr.firstDirSector
        = .ok entries) :
    cfbParse b .Strict = .error .TruncatedData ∧
    cfbParse b .Lenient = .ok ⟨entries,
      lenientFat b (2 ^ hdr.sectorShift) (init ++ [last]),
      2 ^ hdr.sectorShift, hdr.miniCutoff⟩ := by
  have hstrict := buildFat_strict_truncated b (2 ^ hdr.sectorShift) last hlast init hinit
  have hlen := buildFat_lenient b (2 ^ hdr.sectorShift) (init ++ [last])
  constructor
  · simp only [cfbParse, hhdr, hlocs, hstrict]
  · simp only [cfbParse, hhdr, hlocs, hlen, hdir]

/-- Witness for C1: `truncBuf` fails Strict parsing with `TruncatedData`
and parses in Lenient mode. -/
theorem cfbParse_truncated_fat_modes_witness :
    cfbParse truncBuf .Strict = .error .TruncatedData ∧
    cfbParse truncBuf .Lenient = .ok ⟨[], lenientFat truncBuf 512 [0, 2], 512, 4096⟩ :=
  cfbParse_truncated_fat_modes truncBuf ⟨9, 6, 2, 1, 4096, ENDOFCHAIN, 0⟩
    [0] 2 [] rfl rfl (by decide) (by decide) rfl

theorem startsWithL_append_self {α : Type} [BEq α] [LawfulBEq α] (p x : List α) :
    startsWithL (p ++ x) p = true := by
  induction p with
  | nil => simp [startsWithL]
  | cons a p ih => simp [startsWithL, ih]

theorem containsL_middle {α : Type} [BEq α] [LawfulBEq α] (a mid rest : List α) :
    containsL (a ++ (mid ++ rest)) mid = true := by
  induction a with
  | nil =>
    cases mid with
    | nil =>
      cases rest with
      | nil => rfl
      | cons h t => simp [containsL, startsWithL]
    | cons m mt =>
      simp only [List.nil_append, List.cons_append, containsL]
      have := startsWithL_append_self (m :: mt) rest
      simp only [List.cons_append] at this
      simp [this]
  | cons x a ih =>
    simp only [List.cons_append, containsL, List.append_eq]
    rw [ih]
    simp

theorem parseCfbHeader_short (b : List Nat) (h : b.length = 15) :
    parseCfbHeader b = .error .InvalidSignature := by
  have hne : b.take 16 ≠ cfbSignature := by
    intro heq
    have hl := congrArg List.length heq
    rw [List.length_take, h] at hl
    simp [cfbSignature] at hl
  unfold parseCfbHeader
  rw [if_pos hne]

/-- C3.  Any 15-byte input submitted with the Outlook MSG content type is
rejected under every configuration: the 16-byte CFB signature cannot match,
both the configured parse and the Lenient retry fail with
`InvalidSignature`, and extraction returns a `Parsing` error.  The model is
a total function, so extraction provably terminates on every such input
(the sub-second wall-clock budget itself lies outside the embedding). -/
theorem extract_msg_15_bytes (b : List Nat) (cfg : ExtractionConfig)
    (h : b.length = 15) :
    extract_bytes b "application/vnd.ms-outlook" cfg =
      .error (.Parsing (cfbErrMsg .InvalidSignature)) := by
  have hp : ∀ m, cfbParse b m = .error .InvalidSignature := by
    intro m
    unfold cfbParse
    rw [parseCfbHeader_short b h]
  unfold extract_bytes
  rw [if_pos rfl]
  cases hc : cfg.cfb_mode <;> simp only [msgExtract, hc, hp]

/-- Witness for C3: fifteen arbitrary bytes with the MSG content type yield
a `Parsing` error. -/
theorem extract_msg_15_bytes_witness :
    extract_bytes (List.replicate 15 65) "application/vnd.ms-outlook" defaultConfig =
      .error (.Parsing (cfbErrMsg .InvalidSignature)) :=
  extract_msg_15_bytes (List.replicate 15 65) defaultConfig (by decide)

/-- C8 counterexample: under the default configuration (`cfb_mode =
Strict`, second conjunct shows Strict parsing itself rejects the file) the
truncated-FAT buffer `truncBuf` is nevertheless recovered — extraction
succeeds — although the caller never selected Lenient mode.  This refutes
the claim that a truncated-FAT file is not recovered unless the caller
explicitly selects Lenient. -/
theorem default_config_recovers_truncated_fat :
    defaultConfig.cfb_mode = CfbMode.Strict ∧
    cfbParse truncBuf defaultConfig.cfb_mode = .error .TruncatedData ∧
    exceptOk (extract_bytes truncBuf "application/vnd.ms-outlook" defaultConfig) = true :=
  ⟨rfl, rfl, rfl⟩

/-- C8 amended: `cfb_mode` defaults to `Strict` and Lenient padding stays
opt-in at the parse level, but the MSG extraction path retries a failed
Strict parse in Lenient mode, so a truncated-FAT file that Lenient parsing
recovers is recovered by extraction even under the default
configuration. -/
theorem default_strict_with_lenient_fallback (b : List Nat) (e : CfbError)
    (c : CfbContainer)
    (hstrict : cfbParse b .Strict = .error e)
    (hlen : cfbParse b .Lenient = .ok c) :
    defaultConfig.cfb_mode = CfbMode.Strict ∧
    extract_bytes b "application/vnd.ms-outlook" defaultConfig = .ok (msgResult c) := by
  refine ⟨rfl, ?_⟩
  unfold extract_bytes
  rw [if_pos rfl]
  simp only [msgExtract, show defaultConfig.cfb_mode = CfbMode.Strict from rfl,
    hstrict, hlen]

/-- Witness for the amended C8: the truncated-FAT buffer is recovered under
the default configuration. -/
theorem default_strict_with_lenient_fallback_witness :
    defaultConfig.cfb_mode = CfbMode.Strict ∧
    extract_bytes truncBuf "application/vnd.ms-outlook" defaultConfig =
      .ok (msgResult ⟨[], lenientFat truncBuf 512 [0, 2], 512, 4096⟩) :=
  default_strict_with_lenient_fallback truncBuf .TruncatedData
    ⟨[], lenientFat truncBuf 512 [0, 2], 512, 4096⟩ rfl rfl

theorem length_insertByNum (x : DirEntry) :
    ∀ l, (insertByNum x l).length = l.length + 1 := by
  intro l
  induction l with
  | nil => rfl
  | cons y t ih =>
    simp only [insertByNum]
    split
    · simp
    · simp [ih]

theorem length_sortByNum : ∀ l, (sortByNum l).length = l.length := by
  intro l
  induction l with
  | nil => rfl
  | cons x t ih => simp [sortByNum, length_insertByNum, ih]

theorem mem_insertByNum (x a : DirEntry) :
    ∀ l, a ∈ insertByNum x l ↔ a = x ∨ a ∈ l := by
  intro l
  induction l with
  | nil => simp [insertByNum]
  | cons y t ih =>
    simp only [insertByNum]
    split
    · simp [List.mem_cons]
    · simp only [List.mem_cons, ih]
      tauto

theorem sorted_insertByNum (x : DirEntry) (l : List DirEntry)
    (h : l.Pairwise (fun a b => attachNum a.name ≤ attachNum b.name)) :
    (insertByNum x l).Pairwise (fun a b => attachNum a.name ≤ attachNum b.name) := by
  induction l with
  | nil => simp [insertByNum]
  | cons y t ih =>
    rcases List.pairwise_cons.mp h with ⟨hy, ht⟩
    by_cases hle : attachNum x.name ≤ attachNum y.name
    · simp only [insertByNum, if_pos hle]
      refine List.pairwise_cons.mpr ⟨?_, h⟩
      intro b hb
      rcases List.mem_cons.mp hb with rfl | hbt
      · exact hle
      · exact le_trans hle (hy b hbt)
    · simp only [insertByNum, if_neg hle]
      refine List.pairwise_cons.mpr ⟨?_, ih ht⟩
      intro b hb
      rcases (mem_insertByNum x b t).mp hb with rfl | hbt
      · exact le_of_not_le hle
      · exact hy b hbt

theorem sorted_sortByNum :
    ∀ l, (sortByNum l).Pairwise (fun a b => attachNum a.name ≤ attachNum b.name) := by
  intro l
  induction l with
  | nil => simp [sortByNum]
  | cons x t ih =>
    simp only [sortByNum]
    exact sorted_insertByNum x (sortByNum t) ih

/-- C6.  When the CFB container of an Outlook message parses in the
configured mode and holds exactly three numbered attachment storages,
extraction succeeds, the email metadata carries exactly three attachment
records (one per numbered storage, listed in ascending numeric order), and
the content contains the literal `Attachments:` marker. -/
theorem msg_three_attachments (b : List Nat) (cfg : ExtractionConfig)
    (c : CfbContainer)
    (hp : cfbParse b cfg.cfb_mode = .ok c)
    (h3 : (attachStorageEntries c).length = 3) :
    extract_bytes b "application/vnd.ms-outlook" cfg = .ok (msgResult c) ∧
    (emailAttachments (msgResult c)).length = 3 ∧
    containsS (msgResult c).content attachMarker = true ∧
    ((sortByNum (attachStorageEntries c)).map
      (fun d => attachNum d.name)).Pairwise (· ≤ ·) := by
  have hlen : (sortByNum (attachStorageEntries c)).length = 3 := by
    rw [length_sortByNum]
    exact h3
  have hne : (sortByNum (attachStorageEntries c)).isEmpty = false := by
    cases hs : sortByNum (attachStorageEntries c) with
    | nil => rw [hs] at hlen; simp at hlen
    | cons a t => rfl
  refine ⟨?_, ?_, ?_, ?_⟩
  · unfold extract_bytes
    rw [if_pos rfl]
    simp only [msgExtract, hp]
  · simp only [emailAttachments, msgResult, List.length_map]
    exact hlen
  · have hc : (msgResult c).content =
        String.mk (("Outlook message\n\n").data ++
          (attachMarker.data ++
            ('\n' :: ((sortByNum (attachStorageEntries c)).map
              (fun d => (decodeUnits d.name).data ++ ['\n'])).flatten))) := by
      simp [msgResult, msgContentChars, msgAttachBlock, hne]
    rw [show containsS (msgResult c).content attachMarker =
        containsL (msgResult c).content.data attachMarker.data from rfl, hc]
    exact containsL_middle _ _ _
  · exact List.pairwise_map.mpr (sorted_sortByNum _)

/-- Witness for C6: the three-attachment buffer `msgBuf3` under the default
configuration. -/
theorem msg_three_attachments_witness :
    extract_bytes msgBuf3 "application/vnd.ms-outlook" defaultConfig =
      .ok (msgResult msgBuf3Container) ∧
    (emailAttachments (msgResult msgBuf3Container)).length = 3 ∧
    containsS (msgResult msgBuf3Container).content attachMarker = true ∧
    ((sortByNum (attachStorageEntries msgBuf3Container)).map
      (fun d => attachNum d.name)).Pairwise (· ≤ ·) :=
  msg_three_attachments msgBuf3 defaultConfig msgBuf3Container rfl (by decide)

/-- C7.  Calling the cached extraction twice with identical bytes, declared
type and configuration yields identical observable output: the second call
(a cache hit when the first succeeded, a deterministic recomputation when
it failed) returns exactly the first call's result. -/
theorem extractCached_idempotent (cache : List (Fingerprint × ExtractionResult))
    (b : List Nat) (t : String) (cfg : ExtractionConfig) :
    (extractCached (extractCached cache b t cfg).2 b t cfg).1 =
      (extractCached cache b t cfg).1 := by
  unfold extractCached
  cases hget : cacheGet cache (fingerprintOf b t cfg) with
  | some r => simp [hget]
  | none =>
    cases hex : extract_bytes b t cfg with
    | ok r => simp [hget, hex, cacheGet]
    | error e => simp [hget, hex]

/-- C9 counterexample: a `Validation` error surfaces with `error_type`
`"ValidationError"`, not the bare taxonomy name `"Validation"` the claim
states (the same holds for `Ocr`, `Io` and `UnsupportedFormat`). -/
theorem errorTypeName_not_bare_taxonomy :
    (ApiError.new BAD_REQUEST (KreuzbergError.Validation "bad request")).body.error_type
      ≠ "Validation" := by
  decide

/-- C9 amended: every failed extraction surfaces one typed error whose body
carries a human-readable message, and the surfaced `error_type` is the
taxonomy name as restyled by `ApiError::new`: Validation →
"ValidationError", Parsing → "ParsingError", Ocr → "OCRError", Io →
"IOError", Cache → "CacheError", UnsupportedFormat →
"UnsupportedFormatError". -/
theorem errorTypeName_surfaced (s : Nat) (m : String) :
    (ApiError.new s (.Validation m)).body.error_type = "ValidationError" ∧
    (ApiError.new s (.Parsing m)).body.error_type = "ParsingError" ∧
    (ApiError.new s (.Ocr m)).body.error_type = "OCRError" ∧
    (ApiError.new s (.Io m)).body.error_type = "IOError" ∧
    (ApiError.new s (.Cache m)).body.error_type = "CacheError" ∧
    (ApiError.new s (.UnsupportedFormat m)).body.error_type = "UnsupportedFormatError" ∧
    (∀ e : KreuzbergError, (ApiError.new s e).body.message = errorMessage e) :=
  ⟨rfl, rfl, rfl, rfl, rfl, rfl, fun _ => rfl⟩

/-- C10.  The `From<KreuzbergError> for ApiError` conversion maps
`Validation` to HTTP 400, `Parsing` and `Ocr` to 422 and every other
variant to 500, and the response body's `status_code` always equals the
numeric value of the chosen HTTP status. -/
theorem apiErrorFrom_status (e : KreuzbergError) :
    ((apiErrorFrom e).status =
      match e with
      | .Validation _ => BAD_REQUEST
      | .Parsing _ => UNPROCESSABLE_ENTITY
      | .Ocr _ => UNPROCESSABLE_ENTITY
      | _ => INTERNAL_SERVER_ERROR) ∧
    (apiErrorFrom e).body.status_code = (apiErrorFrom e).status := by
  cases e <;> exact ⟨rfl, rfl⟩


theorem splitMessage_noCR (a : List Char) (h : ∀ ch ∈ a, ch ≠ '\r') (r : List Char) :
    splitMessage (a ++ r) = ((a ++ (splitMessage r).1, (splitMessage r).2)) := by
  induction a with
  | nil => simp
  | cons c t ih =>
    have hc : c ≠ '\r' := h c (by simp)
    have hsw : startsWithL (c :: (t ++ r)) ('\r' :: '\n' :: '\r' :: '\n' :: []) = false := by
      simp [startsWithL, hc]
    simp only [List.cons_append, splitMessage, List.append_eq, hsw, Bool.false_eq_true, if_false]
    rw [ih (fun ch hch => h ch (by simp [hch]))]

theorem splitMessage_sep (body : List Char) :
    splitMessage ('\r' :: '\n' :: '\r' :: '\n' :: body) = ([], body) := by
  have hsw : startsWithL ('\r' :: '\n' :: '\r' :: '\n' :: body)
      ('\r' :: '\n' :: '\r' :: '\n' :: []) = true := by
    simp [startsWithL]
  simp only [splitMessage, hsw, if_true]
  simp

theorem splitMessage_crlf (l : List Char)
    (h : startsWithL l ('\r' :: '\n' :: []) = false) :
    splitMessage ('\r' :: '\n' :: l) =
      ('\r' :: '\n' :: (splitMessage l).1, (splitMessage l).2) := by
  have h1 : startsWithL ('\r' :: '\n' :: l) ('\r' :: '\n' :: '\r' :: '\n' :: []) = false := by
    simp only [startsWithL]
    simpa using h
  have h2 : ∀ x, startsWithL ('\n' :: x) ('\r' :: '\n' :: '\r' :: '\n' :: []) = false := by
    intro x
    simp [startsWithL]
  simp only [splitMessage, h1, h2, Bool.false_eq_true, if_false]

theorem splitLines_noCR_line (a : List Char) (h : ∀ ch ∈ a, ch ≠ '\r') (r : List Char) :
    splitLines (a ++ '\r' :: '\n' :: r) = a :: splitLines r := by
  induction a with
  | nil => simp [splitLines]
  | cons c t ih =>
    have hc : c ≠ '\r' := h c (by simp)
    cases t with
    | nil =>
      simp [splitLines, hc]
    | cons d u =>
      have hrec := ih (fun ch hch => h ch (by simp [hch]))
      simp only [List.cons_append] at hrec ⊢
      simp only [splitLines, hc, false_and, if_false, hrec]

theorem splitLines_noCR (a : List Char) (h : ∀ ch ∈ a, ch ≠ '\r') :
    splitLines a = [a] := by
  induction a with
  | nil => rfl
  | cons c t ih =>
    have hc : c ≠ '\r' := h c (by simp)
    cases t with
    | nil => rfl
    | cons d u =>
      have hrec := ih (fun ch hch => h ch (by simp [hch]))
      simp only [splitLines, hc, false_and, if_false, hrec]

theorem splitHeaderLine_label (lab : List Char) (h : ∀ ch ∈ lab, ch ≠ ':')
    (rest : List Char) :
    splitHeaderLine (lab ++ ':' :: rest) =
      (lab, rest.dropWhile (fun x => x == ' ')) := by
  induction lab with
  | nil => simp [splitHeaderLine]
  | cons c t ih =>
    have hc : c ≠ ':' := h c (by simp)
    simp only [List.cons_append, splitHeaderLine, List.append_eq, hc, if_false,
      ih (fun ch hch => h ch (by simp [hch]))]

theorem skipPast_length_le (nd : List Char) :
    ∀ u, (skipPast nd u).length ≤ u.length := by
  intro u
  induction u with
  | nil => simp [skipPast]
  | cons a b ih =>
    simp only [skipPast]
    split
    · rw [List.length_drop]
      exact Nat.sub_le _ _
    · exact Nat.le_trans ih (by simp)

theorem skipTag_length_le : ∀ u : List Char, (skipTag u).length ≤ u.length := by
  intro u
  induction u with
  | nil => simp [skipTag]
  | cons a b ih =>
    simp only [skipTag]
    split
    · simp
    · exact Nat.le_trans ih (by simp)

theorem sanitizeAux_fuel : ∀ (f g : Nat) (l : List Char), l.length ≤ f → l.length ≤ g →
    sanitizeAux f l = sanitizeAux g l := by
  intro f
  induction f with
  | zero =>
    intro g l hf _
    have : l = [] := List.eq_nil_of_length_eq_zero (Nat.le_zero.mp hf)
    subst this
    cases g <;> rfl
  | succ k ih =>
    intro g l hf hg
    cases l with
    | nil => cases g <;> rfl
    | cons c t =>
      cases g with
      | zero => simp at hg
      | succ g' =>
        have htf : t.length ≤ k := by simpa using hf
        have htg : t.length ≤ g' := by simpa using hg
        simp only [sanitizeAux]
        by_cases hc : c = '<'
        · simp only [hc, if_pos rfl]
          by_cases h1 : startsWithL t ("script".data) = true
          · simp only [h1, if_true]
            exact ih g' _ (le_trans (skipPast_length_le _ _) htf)
              (le_trans (skipPast_length_le _ _) htg)
          · simp only [h1]
            by_cases h2 : startsWithL t ("style".data) = true
            · simp only [h2, if_true, Bool.false_eq_true, if_false]
              exact ih g' _ (le_trans (skipPast_length_le _ _) htf)
                (le_trans (skipPast_length_le _ _) htg)
            · simp only [h2, Bool.false_eq_true, if_false]
              exact ih g' _ (le_trans (skipTag_length_le _) htf)
                (le_trans (skipTag_length_le _) htg)
        · simp only [hc, if_false]
          rw [ih g' t htf htg]

theorem sanitizeHtml_no_lt (a : List Char) (h : ∀ ch ∈ a, ch ≠ '<') (r : List Char) :
    sanitizeHtml (a ++ r) = a ++ sanitizeHtml r := by
  induction a with
  | nil => simp
  | cons c t ih =>
    have hc : c ≠ '<' := h c (by simp)
    have ht := ih (fun ch hch => h ch (by simp [hch]))
    simp only [sanitizeHtml] at ht ⊢
    simp only [List.cons_append, List.length_cons, sanitizeAux, List.append_eq, hc,
      if_false]
    rw [ht]

theorem skipPast_no_lt (nd a l : List Char) (ha : ∀ ch ∈ a, ch ≠ '<') :
    skipPast ('<' :: nd) (a ++ l) = skipPast ('<' :: nd) l := by
  induction a with
  | nil => simp
  | cons c t ih =>
    have hc : c ≠ '<' := ha c (by simp)
    have hsw : startsWithL (c :: (t ++ l)) ('<' :: nd) = false := by
      simp [startsWithL, hc]
    simp only [List.cons_append, skipPast, List.append_eq, hsw, Bool.false_eq_true,
      if_false]
    exact ih (fun ch hch => ha ch (by simp [hch]))

theorem skipPast_exact (nd l : List Char) :
    skipPast ('<' :: nd) (('<' :: nd) ++ l) = l := by
  have hsw : startsWithL (('<' :: nd) ++ l) ('<' :: nd) = true :=
    startsWithL_append_self _ _
  simp only [List.cons_append] at hsw
  simp only [List.cons_append, skipPast, List.append_eq, hsw, if_true]
  simp only [List.length_cons, List.drop_succ_cons]
  exact List.drop_left nd l

theorem sanitizeHtml_script (s r : List Char) (hs : ∀ ch ∈ s, ch ≠ '<') :
    sanitizeHtml (("<script>").data ++ (s ++ (("</script>").data ++ r))) =
      sanitizeHtml r := by
  rw [show ("<script>").data ++ (s ++ (("</script>").data ++ r)) =
    '<' :: (("script>").data ++ (s ++ (("</script>").data ++ r))) from rfl]
  set T := ("script>").data ++ (s ++ (("</script>").data ++ r)) with hT
  have h1 : startsWithL T ("script".data) = true := by rw [hT]; rfl
  have h2 : skipPast (("</script>").data) T = r := by
    rw [hT, show ("</script>").data = '<' :: ("/script>").data from rfl]
    rw [skipPast_no_lt _ (("script>").data) _ (by decide)]
    rw [skipPast_no_lt _ s _ hs]
    exact skipPast_exact _ _
  have hrT : r.length ≤ T.length := by
    rw [← h2]
    exact skipPast_length_le _ _
  unfold sanitizeHtml
  rw [List.length_cons, sanitizeAux, if_pos rfl, h1, if_pos rfl, h2]
  exact sanitizeAux_fuel T.length r.length r hrT (le_refl _)

theorem sanitizeHtml_style (s r : List Char) (hs : ∀ ch ∈ s, ch ≠ '<') :
    sanitizeHtml (("<style>").data ++ (s ++ (("</style>").data ++ r))) =
      sanitizeHtml r := by
  rw [show ("<style>").data ++ (s ++ (("</style>").data ++ r)) =
    '<' :: (("style>").data ++ (s ++ (("</style>").data ++ r))) from rfl]
  set T := ("style>").data ++ (s ++ (("</style>").data ++ r)) with hT
  have h0 : startsWithL T ("script".data) = false := by rw [hT]; rfl
  have h1 : startsWithL T ("style".data) = true := by rw [hT]; rfl
  have h2 : skipPast (("</style>").data) T = r := by
    rw [hT, show ("</style>").data = '<' :: ("/style>").data from rfl]
    rw [skipPast_no_lt _ (("style>").data) _ (by decide)]
    rw [skipPast_no_lt _ s _ hs]
    exact skipPast_exact _ _
  have hrT : r.length ≤ T.length := by
    rw [← h2]
    exact skipPast_length_le _ _
  unfold sanitizeHtml
  rw [List.length_cons, sanitizeAux, if_pos rfl, h0, if_neg Bool.false_ne_true, h1,
    if_pos rfl, h2]
  exact sanitizeAux_fuel T.length r.length r hrT (le_refl _)

theorem decode_encode (l : List Char) : decodeBytes (encodeChars l) = l := by
  induction l with
  | nil => rfl
  | cons c t ih =>
    simp only [decodeBytes, encodeChars, List.map_cons] at ih ⊢
    rw [ih, Char.ofNat_toNat]

theorem emlExtract_three_headers (cfg : ExtractionConfig) (fv tov sv body : List Char)
    (hfv : ∀ ch ∈ fv, ch ≠ '\r') (htov : ∀ ch ∈ tov, ch ≠ '\r')
    (hsv : ∀ ch ∈ sv, ch ≠ '\r') :
    extract_bytes (mkEmlBytes fv tov sv body) "message/rfc822" cfg =
      .ok ⟨String.mk (renderHdrBlock (some (sv.dropWhile (fun x => x == ' ')))
            (some (fv.dropWhile (fun x => x == ' ')))
            (some (tov.dropWhile (fun x => x == ' '))) ++ ('\n' :: body)),
          "message/rfc822",
          ⟨some (String.mk (sv.dropWhile (fun x => x == ' '))), none, none,
            some (.Email ⟨some (String.mk (fv.dropWhile (fun x => x == ' '))),
              addrList (some (tov.dropWhile (fun x => x == ' '))), [], [], none, []⟩)⟩⟩ := by
  have hAcr : ∀ ch ∈ ("From: ").data ++ fv, ch ≠ '\r' := by
    intro ch hch
    rcases List.mem_append.mp hch with h | h
    · exact (by decide : ∀ c ∈ ("From: ").data, c ≠ '\r') ch h
    · exact hfv ch h
  have hBcr : ∀ ch ∈ ("To: ").data ++ tov, ch ≠ '\r' := by
    intro ch hch
    rcases List.mem_append.mp hch with h | h
    · exact (by decide : ∀ c ∈ ("To: ").data, c ≠ '\r') ch h
    · exact htov ch h
  have hCcr : ∀ ch ∈ ("Subject: ").data ++ sv, ch ≠ '\r' := by
    intro ch hch
    rcases List.mem_append.mp hch with h | h
    · exact (by decide : ∀ c ∈ ("Subject: ").data, c ≠ '\r') ch h
    · exact hsv ch h
  have e3 : splitMessage ((("Subject: ").data ++ sv) ++
      ('\r' :: '\n' :: '\r' :: '\n' :: body)) = ((("Subject: ").data ++ sv), body) := by
    rw [splitMessage_noCR _ hCcr, splitMessage_sep]
    simp
  have e2 : splitMessage ('\r' :: '\n' :: ((("Subject: ").data ++ sv) ++
      ('\r' :: '\n' :: '\r' :: '\n' :: body))) =
      ('\r' :: '\n' :: ((("Subject: ").data ++ sv)), body) := by
    rw [splitMessage_crlf _ (by rfl), e3]
  have e1 : splitMessage ((("To: ").data ++ tov) ++ ('\r' :: '\n' ::
      ((("Subject: ").data ++ sv) ++ ('\r' :: '\n' :: '\r' :: '\n' :: body)))) =
      ((("To: ").data ++ tov) ++ ('\r' :: '\n' :: (("Subject: ").data ++ sv)), body) := by
    rw [splitMessage_noCR _ hBcr, e2]
  have e0 : splitMessage ('\r' :: '\n' :: ((("To: ").data ++ tov) ++ ('\r' :: '\n' ::
      ((("Subject: ").data ++ sv) ++ ('\r' :: '\n' :: '\r' :: '\n' :: body))))) =
      ('\r' :: '\n' :: ((("To: ").data ++ tov) ++
        ('\r' :: '\n' :: (("Subject: ").data ++ sv))), body) := by
    rw [splitMessage_crlf _ (by rfl), e1]
  have hsm : splitMessage (mkEmlChars fv tov sv body) =
      ((("From: ").data ++ fv) ++ ('\r' :: '\n' :: ((("To: ").data ++ tov) ++
        ('\r' :: '\n' :: (("Subject: ").data ++ sv)))), body) := by
    unfold mkEmlChars
    rw [splitMessage_noCR _ hAcr, e0]
  have hlines : splitLines ((("From: ").data ++ fv) ++ ('\r' :: '\n' ::
      ((("To: ").data ++ tov) ++ ('\r' :: '\n' :: (("Subject: ").data ++ sv))))) =
      [("From: ").data ++ fv, ("To: ").data ++ tov, ("Subject: ").data ++ sv] := by
    rw [splitLines_noCR_line _ hAcr, splitLines_noCR_line _ hBcr,
      splitLines_noCR _ hCcr]
  have hshA : splitHeaderLine (("From: ").data ++ fv) =
      (("From").data, fv.dropWhile (fun x => x == ' ')) := by
    rw [show ("From: ").data ++ fv = ("From").data ++ ':' :: ' ' :: fv from rfl,
      splitHeaderLine_label _ (by decide)]
    simp [List.dropWhile_cons]
  have hshB : splitHeaderLine (("To: ").data ++ tov) =
      (("To").data, tov.dropWhile (fun x => x == ' ')) := by
    rw [show ("To: ").data ++ tov = ("To").data ++ ':' :: ' ' :: tov from rfl,
      splitHeaderLine_label _ (by decide)]
    simp [List.dropWhile_cons]
  have hshC : splitHeaderLine (("Subject: ").data ++ sv) =
      (("Subject").data, sv.dropWhile (fun x => x == ' ')) := by
    rw [show ("Subject: ").data ++ sv = ("Subject").data ++ ':' :: ' ' :: sv from rfl,
      splitHeaderLine_label _ (by decide)]
    simp [List.dropWhile_cons]
  have hflds : headerFields ((("From: ").data ++ fv) ++ ('\r' :: '\n' ::
      ((("To: ").data ++ tov) ++ ('\r' :: '\n' :: (("Subject: ").data ++ sv))))) =
      [(("From").data, fv.dropWhile (fun x => x == ' ')),
       (("To").data, tov.dropWhile (fun x => x == ' ')),
       (("Subject").data, sv.dropWhile (fun x => x == ' '))] := by
    unfold headerFields
    rw [hlines]
    simp only [List.map_cons, List.map_nil, hshA, hshB, hshC]
  have hdec : decodeBytes (mkEmlBytes fv tov sv body) = mkEmlChars fv tov sv body := by
    unfold mkEmlBytes
    exact decode_encode _
  have hsub : ∀ (w1 w2 w3 : List Char), findHeader (("Subject").data)
      [(("From").data, w1), (("To").data, w2), (("Subject").data, w3)] = some w3 := by
    intro w1 w2 w3
    simp [findHeader]
  have hfrom : ∀ (w1 w2 w3 : List Char), findHeader (("From").data)
      [(("From").data, w1), (("To").data, w2), (("Subject").data, w3)] = some w1 := by
    intro w1 w2 w3
    simp [findHeader]
  have hto : ∀ (w1 w2 w3 : List Char), findHeader (("To").data)
      [(("From").data, w1), (("To").data, w2), (("Subject").data, w3)] = some w2 := by
    intro w1 w2 w3
    simp [findHeader]
  have hmid : ∀ (w1 w2 w3 : List Char), findHeader (("Message-ID").data)
      [(("From").data, w1), (("To").data, w2), (("Subject").data, w3)] = none := by
    intro w1 w2 w3
    simp [findHeader]
  have hdate : ∀ (w1 w2 w3 : List Char), findHeader (("Date").data)
      [(("From").data, w1), (("To").data, w2), (("Subject").data, w3)] = none := by
    intro w1 w2 w3
    simp [findHeader]
  have hct : ∀ (w1 w2 w3 : List Char), findHeader (("Content-Type").data)
      [(("From").data, w1), (("To").data, w2), (("Subject").data, w3)] = none := by
    intro w1 w2 w3
    simp [findHeader]
  have hcc : ∀ (w1 w2 w3 : List Char), findHeader (("Cc").data)
      [(("From").data, w1), (("To").data, w2), (("Subject").data, w3)] = none := by
    intro w1 w2 w3
    simp [findHeader]
  have hbcc : ∀ (w1 w2 w3 : List Char), findHeader (("Bcc").data)
      [(("From").data, w1), (("To").data, w2), (("Subject").data, w3)] = none := by
    intro w1 w2 w3
    simp [findHeader]
  unfold extract_bytes
  rw [if_neg (by decide), if_pos rfl]
  simp only [emlExtract, hdec, hsm, hflds, hsub, hfrom, hto, hmid, hdate, hct,
    hcc, hbcc, Option.map_some, Option.map_none, addrList]
  rfl

/-- C5.  A raw RFC822 message with `From: sender@example.com`, a `To`
header, `Subject: Test Email Subject` and a plain-text body extracts
successfully with `metadata.subject = some "Test Email Subject"`,
`EmailMetadata.from_email = some "sender@example.com"`, and content
containing the body text verbatim. -/
theorem eml_basic_extraction (cfg : ExtractionConfig) (tov body : List Char)
    (htov : ∀ ch ∈ tov, ch ≠ '\r') :
    exceptOk (extract_bytes (mkEmlBytes (("sender@example.com").data) tov
      (("Test Email Subject").data) body) "message/rfc822" cfg) = true ∧
    resultSubject (extract_bytes (mkEmlBytes (("sender@example.com").data) tov
      (("Test Email Subject").data) body) "message/rfc822" cfg) =
      some "Test Email Subject" ∧
    resultFromEmail (extract_bytes (mkEmlBytes (("sender@example.com").data) tov
      (("Test Email Subject").data) body) "message/rfc822" cfg) =
      some "sender@example.com" ∧
    containsS (resultContent (extract_bytes (mkEmlBytes (("sender@example.com").data)
      tov (("Test Email Subject").data) body) "message/rfc822" cfg))
      (String.mk body) = true := by
  have h := emlExtract_three_headers cfg (("sender@example.com").data) tov
    (("Test Email Subject").data) body (by decide) htov (by decide)
  refine ⟨?_, ?_, ?_, ?_⟩ <;> rw [h]
  · rfl
  · rfl
  · rfl
  · show containsL (renderHdrBlock
      (some ((("Test Email Subject").data).dropWhile (fun x => x == ' ')))
      (some ((("sender@example.com").data).dropWhile (fun x => x == ' ')))
      (some (tov.dropWhile (fun x => x == ' '))) ++ ('\n' :: body)) body = true
    rw [show renderHdrBlock
        (some ((("Test Email Subject").data).dropWhile (fun x => x == ' ')))
        (some ((("sender@example.com").data).dropWhile (fun x => x == ' ')))
        (some (tov.dropWhile (fun x => x == ' '))) ++ ('\n' :: body) =
      (renderHdrBlock
        (some ((("Test Email Subject").data).dropWhile (fun x => x == ' ')))
        (some ((("sender@example.com").data).dropWhile (fun x => x == ' ')))
        (some (tov.dropWhile (fun x => x == ' '))) ++ ['\n']) ++ (body ++ []) by simp]
    exact containsL_middle _ _ _

/-- Witness for C5: the exact message of the basic-extraction test. -/
theorem eml_basic_extraction_witness :
    exceptOk (extract_bytes (mkEmlBytes (("sender@example.com").data)
      (("recipient@example.com").data) (("Test Email Subject").data)
      (("This is the email body content.").data)) "message/rfc822" defaultConfig)
      = true ∧
    resultSubject (extract_bytes (mkEmlBytes (("sender@example.com").data)
      (("recipient@example.com").data) (("Test Email Subject").data)
      (("This is the email body content.").data)) "message/rfc822" defaultConfig) =
      some "Test Email Subject" ∧
    resultFromEmail (extract_bytes (mkEmlBytes (("sender@example.com").data)
      (("recipient@example.com").data) (("Test Email Subject").data)
      (("This is the email body content.").data)) "message/rfc822" defaultConfig) =
      some "sender@example.com" ∧
    containsS (resultContent (extract_bytes (mkEmlBytes (("sender@example.com").data)
      (("recipient@example.com").data) (("Test Email Subject").data)
      (("This is the email body content.").data)) "message/rfc822" defaultConfig))
      (String.mk (("This is the email body content.").data)) = true :=
  eml_basic_extraction defaultConfig (("recipient@example.com").data)
    (("This is the email body content.").data) (by decide)

theorem emlExtract_html_headers (cfg : ExtractionConfig) (fv tov sv body : List Char)
    (hfv : ∀ ch ∈ fv, ch ≠ '\r') (htov : ∀ ch ∈ tov, ch ≠ '\r')
    (hsv : ∀ ch ∈ sv, ch ≠ '\r') :
    extract_bytes (mkHtmlEmlBytes fv tov sv body) "message/rfc822" cfg =
      .ok ⟨String.mk (renderHdrBlock (some (sv.dropWhile (fun x => x == ' ')))
            (some (fv.dropWhile (fun x => x == ' ')))
            (some (tov.dropWhile (fun x => x == ' '))) ++
            ('\n' :: sanitizeHtml body)),
          "message/rfc822",
          ⟨some (String.mk (sv.dropWhile (fun x => x == ' '))), none, none,
            some (.Email ⟨some (String.mk (fv.dropWhile (fun x => x == ' '))),
              addrList (some (tov.dropWhile (fun x => x == ' '))), [], [], none, []⟩)⟩⟩ := by
  have hAcr : ∀ ch ∈ ("From: ").data ++ fv, ch ≠ '\r' := by
    intro ch hch
    rcases List.mem_append.mp hch with h | h
    · exact (by decide : ∀ c ∈ ("From: ").data, c ≠ '\r') ch h
    · exact hfv ch h
  have hBcr : ∀ ch ∈ ("To: ").data ++ tov, ch ≠ '\r' := by
    intro ch hch
    rcases List.mem_append.mp hch with h | h
    · exact (by decide : ∀ c ∈ ("To: ").data, c ≠ '\r') ch h
    · exact htov ch h
  have hCcr : ∀ ch ∈ ("Subject: ").data ++ sv, ch ≠ '\r' := by
    intro ch hch
    rcases List.mem_append.mp hch with h | h
    · exact (by decide : ∀ c ∈ ("Subject: ").data, c ≠ '\r') ch h
    · exact hsv ch h
  have hDcr : ∀ ch ∈ ("Content-Type: ").data ++ ("text/html; charset=utf-8").data,
      ch ≠ '\r' := by decide
  have e4 : splitMessage ((("Content-Type: ").data ++ ("text/html; charset=utf-8").data)
      ++ ('\r' :: '\n' :: '\r' :: '\n' :: body)) =
      ((("Content-Type: ").data ++ ("text/html; charset=utf-8").data), body) := by
    rw [splitMessage_noCR _ hDcr, splitMessage_sep]
    simp
  have e3 : splitMessage ('\r' :: '\n' ::
      ((("Content-Type: ").data ++ ("text/html; charset=utf-8").data)
        ++ ('\r' :: '\n' :: '\r' :: '\n' :: body))) =
      ('\r' :: '\n' :: (("Content-Type: ").data ++ ("text/html; charset=utf-8").data),
        body) := by
    rw [splitMessage_crlf _ (by rfl), e4]
  have e2 : splitMessage ((("Subject: ").data ++ sv) ++ ('\r' :: '\n' ::
      ((("Content-Type: ").data ++ ("text/html; charset=utf-8").data)
        ++ ('\r' :: '\n' :: '\r' :: '\n' :: body)))) =
      ((("Subject: ").data ++ sv) ++ ('\r' :: '\n' ::
        (("Content-Type: ").data ++ ("text/html; charset=utf-8").data)), body) := by
    rw [splitMessage_noCR _ hCcr, e3]
  have e1 : splitMessage ('\r' :: '\n' :: ((("Subject: ").data ++ sv) ++ ('\r' :: '\n' ::
      ((("Content-Type: ").data ++ ("text/html; charset=utf-8").data)
        ++ ('\r' :: '\n' :: '\r' :: '\n' :: body))))) =
      ('\r' :: '\n' :: ((("Subject: ").data ++ sv) ++ ('\r' :: '\n' ::
        (("Content-Type: ").data ++ ("text/html; charset=utf-8").data))), body) := by
    rw [splitMessage_crlf _ (by rfl), e2]
  have e1b : splitMessage ((("To: ").data ++ tov) ++ ('\r' :: '\n' ::
      ((("Subject: ").data ++ sv) ++ ('\r' :: '\n' ::
        ((("Content-Type: ").data ++ ("text/html; charset=utf-8").data)
          ++ ('\r' :: '\n' :: '\r' :: '\n' :: body)))))) =
      ((("To: ").data ++ tov) ++ ('\r' :: '\n' :: ((("Subject: ").data ++ sv) ++
        ('\r' :: '\n' :: (("Content-Type: ").data ++
          ("text/html; charset=utf-8").data)))), body) := by
    rw [splitMessage_noCR _ hBcr, e1]
  have e0 : splitMessage ('\r' :: '\n' :: ((("To: ").data ++ tov) ++ ('\r' :: '\n' ::
      ((("Subject: ").data ++ sv) ++ ('\r' :: '\n' ::
        ((("Content-Type: ").data ++ ("text/html; charset=utf-8").data)
          ++ ('\r' :: '\n' :: '\r' :: '\n' :: body))))))) =
      ('\r' :: '\n' :: ((("To: ").data ++ tov) ++ ('\r' :: '\n' ::
        ((("Subject: ").data ++ sv) ++ ('\r' :: '\n' :: (("Content-Type: ").data ++
          ("text/html; charset=utf-8").data))))), body) := by
    rw [splitMessage_crlf _ (by rfl), e1b]
  have hsm : splitMessage (mkHtmlEmlChars fv tov sv body) =
      ((("From: ").data ++ fv) ++ ('\r' :: '\n' :: ((("To: ").data ++ tov) ++
        ('\r' :: '\n' :: ((("Subject: ").data ++ sv) ++ ('\r' :: '\n' ::
          (("Content-Type: ").data ++ ("text/html; charset=utf-8").data)))))), body) := by
    unfold mkHtmlEmlChars
    rw [splitMessage_noCR _ hAcr, e0]
  have hlines : splitLines ((("From: ").data ++ fv) ++ ('\r' :: '\n' ::
      ((("To: ").data ++ tov) ++ ('\r' :: '\n' :: ((("Subject: ").data ++ sv) ++
        ('\r' :: '\n' :: (("Content-Type: ").data ++
          ("text/html; charset=utf-8").data))))))) =
      [("From: ").data ++ fv, ("To: ").data ++ tov, ("Subject: ").data ++ sv,
        ("Content-Type: ").data ++ ("text/html; charset=utf-8").data] := by
    rw [splitLines_noCR_line _ hAcr, splitLines_noCR_line _ hBcr,
      splitLines_noCR_line _ hCcr, splitLines_noCR _ hDcr]
  have hshA : splitHeaderLine (("From: ").data ++ fv) =
      (("From").data, fv.dropWhile (fun x => x == ' ')) := by
    rw [show ("From: ").data ++ fv = ("From").data ++ ':' :: ' ' :: fv from rfl,
      splitHeaderLine_label _ (by decide)]
    simp [List.dropWhile_cons]
  have hshB : splitHeaderLine (("To: ").data ++ tov) =
      (("To").data, tov.dropWhile (fun x => x == ' ')) := by
    rw [show ("To: ").data ++ tov = ("To").data ++ ':' :: ' ' :: tov from rfl,
      splitHeaderLine_label _ (by decide)]
    simp [List.dropWhile_cons]
  have hshC : splitHeaderLine (("Subject: ").data ++ sv) =
      (("Subject").data, sv.dropWhile (fun x => x == ' ')) := by
    rw [show ("Subject: ").data ++ sv = ("Subject").data ++ ':' :: ' ' :: sv from rfl,
      splitHeaderLine_label _ (by decide)]
    simp [List.dropWhile_cons]
  have hshD : splitHeaderLine (("Content-Type: ").data ++
      ("text/html; charset=utf-8").data) =
      (("Content-Type").data, ("text/html; charset=utf-8").data) := by decide
  have hflds : headerFields ((("From: ").data ++ fv) ++ ('\r' :: '\n' ::
      ((("To: ").data ++ tov) ++ ('\r' :: '\n' :: ((("Subject: ").data ++ sv) ++
        ('\r' :: '\n' :: (("Content-Type: ").data ++
          ("text/html; charset=utf-8").data))))))) =
      [(("From").data, fv.dropWhile (fun x => x == ' ')),
       (("To").data, tov.dropWhile (fun x => x == ' ')),
       (("Subject").data, sv.dropWhile (fun x => x == ' ')),
       (("Content-Type").data, ("text/html; charset=utf-8").data)] := by
    unfold headerFields
    rw [hlines]
    simp only [List.map_cons, List.map_nil, hshA, hshB, hshC, hshD]
  have hdec : decodeBytes (mkHtmlEmlBytes fv tov sv body) =
      mkHtmlEmlChars fv tov sv body := by
    unfold mkHtmlEmlBytes
    exact decode_encode _
  have hsub : ∀ (w1 w2 w3 w4 : List Char), findHeader (("Subject").data)
      [(("From").data, w1), (("To").data, w2), (("Subject").data, w3),
        (("Content-Type").data, w4)] = some w3 := by
    intro w1 w2 w3 w4
    simp [findHeader]
  have hfrom : ∀ (w1 w2 w3 w4 : List Char), findHeader (("From").data)
      [(("From").data, w1), (("To").data, w2), (("Subject").data, w3),
        (("Content-Type").data, w4)] = some w1 := by
    intro w1 w2 w3 w4
    simp [findHeader]
  have hto : ∀ (w1 w2 w3 w4 : List Char), findHeader (("To").data)
      [(("From").data, w1), (("To").data, w2), (("Subject").data, w3),
        (("Content-Type").data, w4)] = some w2 := by
    intro w1 w2 w3 w4
    simp [findHeader]
  have hct : ∀ (w1 w2 w3 w4 : List Char), findHeader (("Content-Type").data)
      [(("From").data, w1), (("To").data, w2), (("Subject").data, w3),
        (("Content-Type").data, w4)] = some w4 := by
    intro w1 w2 w3 w4
    simp [findHeader]
  have hmid : ∀ (w1 w2 w3 w4 : List Char), findHeader (("Message-ID").data)
      [(("From").data, w1), (("To").data, w2), (("Subject").data, w3),
        (("Content-Type").data, w4)] = none := by
    intro w1 w2 w3 w4
    simp [findHeader]
  have hdate : ∀ (w1 w2 w3 w4 : List Char), findHeader (("Date").data)
      [(("From").data, w1), (("To").data, w2), (("Subject").data, w3),
        (("Content-Type").data, w4)] = none := by
    intro w1 w2 w3 w4
    simp [findHeader]
  have hcc : ∀ (w1 w2 w3 w4 : List Char), findHeader (("Cc").data)
      [(("From").data, w1), (("To").data, w2), (("Subject").data, w3),
        (("Content-Type").data, w4)] = none := by
    intro w1 w2 w3 w4
    simp [findHeader]
  have hbcc : ∀ (w1 w2 w3 w4 : List Char), findHeader (("Bcc").data)
      [(("From").data, w1), (("To").data, w2), (("Subject").data, w3),
        (("Content-Type").data, w4)] = none := by
    intro w1 w2 w3 w4
    simp [findHeader]
  have hhtml : startsWithL (("text/html; charset=utf-8").data)
      (("text/html").data) = true := by decide
  unfold extract_bytes
  rw [if_neg (by decide), if_pos rfl]
  simp only [emlExtract, hdec, hsm, hflds, hsub, hfrom, hto, hct, hmid, hdate,
    hcc, hbcc, hhtml, Option.map_some, Option.map_none, addrList]
  rfl

/-- C4.  An RFC822 message with an HTML body (`Content-Type: text/html`)
containing a style element and a script element extracts successfully, and
the returned content is exactly the rendered headers plus the visible body
text: the style text and the script text are stripped — under the stated
non-occurrence hypotheses the content contains neither — while every
visible text segment of the body is retained. -/
theorem eml_html_sanitization (cfg : ExtractionConfig)
    (tov v1 sty v2 scr v3 : List Char)
    (htov : ∀ ch ∈ tov, ch ≠ '\r')
    (h1 : ∀ ch ∈ v1, ch ≠ '<') (hsty : ∀ ch ∈ sty, ch ≠ '<')
    (h2 : ∀ ch ∈ v2, ch ≠ '<') (hscr : ∀ ch ∈ scr, ch ≠ '<')
    (h3 : ∀ ch ∈ v3, ch ≠ '<')
    (hnscr : containsL (renderHdrBlock
        (some ((("HTML Email").data).dropWhile (fun x => x == ' ')))
        (some ((("sender@example.com").data).dropWhile (fun x => x == ' ')))
        (some (tov.dropWhile (fun x => x == ' '))) ++
        ('\n' :: (v1 ++ (v2 ++ v3)))) scr = false)
    (hnsty : containsL (renderHdrBlock
        (some ((("HTML Email").data).dropWhile (fun x => x == ' ')))
        (some ((("sender@example.com").data).dropWhile (fun x => x == ' ')))
        (some (tov.dropWhile (fun x => x == ' '))) ++
        ('\n' :: (v1 ++ (v2 ++ v3)))) sty = false) :
    exceptOk (extract_bytes (mkHtmlEmlBytes (("sender@example.com").data) tov
      (("HTML Email").data) (htmlBodyChars v1 sty v2 scr v3))
      "message/rfc822" cfg) = true ∧
    resultContent (extract_bytes (mkHtmlEmlBytes (("sender@example.com").data) tov
      (("HTML Email").data) (htmlBodyChars v1 sty v2 scr v3))
      "message/rfc822" cfg) =
      String.mk (renderHdrBlock
        (some ((("HTML Email").data).dropWhile (fun x => x == ' ')))
        (some ((("sender@example.com").data).dropWhile (fun x => x == ' ')))
        (some (tov.dropWhile (fun x => x == ' '))) ++
        ('\n' :: (v1 ++ (v2 ++ v3)))) ∧
    containsS (resultContent (extract_bytes (mkHtmlEmlBytes
      (("sender@example.com").data) tov (("HTML Email").data)
      (htmlBodyChars v1 sty v2 scr v3)) "message/rfc822" cfg))
      (String.mk scr) = false ∧
    containsS (resultContent (extract_bytes (mkHtmlEmlBytes
      (("sender@example.com").data) tov (("HTML Email").data)
      (htmlBodyChars v1 sty v2 scr v3)) "message/rfc822" cfg))
      (String.mk sty) = false ∧
    containsS (resultContent (extract_bytes (mkHtmlEmlBytes
      (("sender@example.com").data) tov (("HTML Email").data)
      (htmlBodyChars v1 sty v2 scr v3)) "message/rfc822" cfg))
      (String.mk v1) = true ∧
    containsS (resultContent (extract_bytes (mkHtmlEmlBytes
      (("sender@example.com").data) tov (("HTML Email").data)
      (htmlBodyChars v1 sty v2 scr v3)) "message/rfc822" cfg))
      (String.mk v2) = true ∧
    containsS (resultContent (extract_bytes (mkHtmlEmlBytes
      (("sender@example.com").data) tov (("HTML Email").data)
      (htmlBodyChars v1 sty v2 scr v3)) "message/rfc822" cfg))
      (String.mk v3) = true := by
  have h := emlExtract_html_headers cfg (("sender@example.com").data) tov
    (("HTML Email").data) (htmlBodyChars v1 sty v2 scr v3) (by decide) htov (by decide)
  have hv3 : sanitizeHtml v3 = v3 := by
    have hx := sanitizeHtml_no_lt v3 h3 []
    rwa [List.append_nil, show sanitizeHtml [] = ([] : List Char) from rfl,
      List.append_nil] at hx
  have hsan : sanitizeHtml (htmlBodyChars v1 sty v2 scr v3) = v1 ++ (v2 ++ v3) := by
    unfold htmlBodyChars
    rw [sanitizeHtml_no_lt v1 h1, sanitizeHtml_style sty _ hsty,
      sanitizeHtml_no_lt v2 h2, sanitizeHtml_script scr _ hscr, hv3]
  rw [hsan] at h
  refine ⟨?_, ?_, ?_, ?_, ?_, ?_, ?_⟩ <;> rw [h]
  · rfl
  · rfl
  · exact hnscr
  · exact hnsty
  · set hdrb := renderHdrBlock
      (some ((("HTML Email").data).dropWhile (fun x => x == ' ')))
      (some ((("sender@example.com").data).dropWhile (fun x => x == ' ')))
      (some (tov.dropWhile (fun x => x == ' '))) with hh
    show containsL (hdrb ++ ('\n' :: (v1 ++ (v2 ++ v3)))) v1 = true
    rw [show hdrb ++ ('\n' :: (v1 ++ (v2 ++ v3))) =
      (hdrb ++ ['\n']) ++ (v1 ++ (v2 ++ v3)) by simp]
    exact containsL_middle _ _ _
  · set hdrb := renderHdrBlock
      (some ((("HTML Email").data).dropWhile (fun x => x == ' ')))
      (some ((("sender@example.com").data).dropWhile (fun x => x == ' ')))
      (some (tov.dropWhile (fun x => x == ' '))) with hh
    show containsL (hdrb ++ ('\n' :: (v1 ++ (v2 ++ v3)))) v2 = true
    rw [show hdrb ++ ('\n' :: (v1 ++ (v2 ++ v3))) =
      ((hdrb ++ ['\n']) ++ v1) ++ (v2 ++ v3) by simp]
    exact containsL_middle _ _ _
  · set hdrb := renderHdrBlock
      (some ((("HTML Email").data).dropWhile (fun x => x == ' ')))
      (some ((("sender@example.com").data).dropWhile (fun x => x == ' ')))
      (some (tov.dropWhile (fun x => x == ' '))) with hh
    show containsL (hdrb ++ ('\n' :: (v1 ++ (v2 ++ v3)))) v3 = true
    rw [show hdrb ++ ('\n' :: (v1 ++ (v2 ++ v3))) =
      (((hdrb ++ ['\n']) ++ v1) ++ v2) ++ (v3 ++ []) by simp]
    exact containsL_middle _ _ _

/-- Witness for C4: a concrete HTML email whose content keeps the visible
heading but neither the script text nor the style text. -/
theorem eml_html_sanitization_witness :
    containsS (resultContent (extract_bytes (mkHtmlEmlBytes
      (("sender@example.com").data) (("recipient@example.com").data)
      (("HTML Email").data) (htmlBodyChars (("HTML Heading ").data)
        (("body color blue").data) ((" bold text ").data) (("alert(1);").data)
        ((" end").data))) "message/rfc822" defaultConfig))
      (String.mk (("alert(1);").data)) = false ∧
    containsS (resultContent (extract_bytes (mkHtmlEmlBytes
      (("sender@example.com").data) (("recipient@example.com").data)
      (("HTML Email").data) (htmlBodyChars (("HTML Heading ").data)
        (("body color blue").data) ((" bold text ").data) (("alert(1);").data)
        ((" end").data))) "message/rfc822" defaultConfig))
      (String.mk (("body color blue").data)) = false ∧
    containsS (resultContent (extract_bytes (mkHtmlEmlBytes
      (("sender@example.com").data) (("recipient@example.com").data)
      (("HTML Email").data) (htmlBodyChars (("HTML Heading ").data)
        (("body color blue").data) ((" bold text ").data) (("alert(1);").data)
        ((" end").data))) "message/rfc822" defaultConfig))
      (String.mk (("HTML Heading ").data)) = true := by
  have h := eml_html_sanitization defaultConfig (("recipient@example.com").data)
    (("HTML Heading ").data) (("body color blue").data) ((" bold text ").data)
    (("alert(1);").data) ((" end").data) (by decide) (by decide) (by decide)
    (by decide) (by decide) (by decide) (by decide) (by decide)
  exact ⟨h.2.2.1, h.2.2.2.1, h.2.2.2.2.1⟩
